import Mathlib

/-!
Verification of `slurm_fastq_submit.py` (dorbarker/slurm-submit).

The tool's phases are shallowly embedded as Lean functions:

* sample-name derivation (`deriveSampleName`): Python `Path.stem`, the
  substitution of `fastq_regex = ^(.+)\.(fastq|fq)(\.gz|\.bz2)?$` by the
  first group, and the removal of every occurrence of
  `illumina_regex = _S.+_L\d*1_R\d+_001` (Python `re.sub` semantics:
  leftmost match, greedy quantifiers with backtracking, scanning resumes
  after each match);
* grouping (`group_fastqs`): insertion-ordered accumulation into a map
  from sample name to file list, then `fwd, rev, *_ = sorted(paths)`,
  which raises `ValueError` when a group has fewer than two members;
* discovery (`get_fastq_paths`): `directory.glob` over the six extension
  patterns, made absolute; a missing or unreadable directory yields no
  entries (pathlib swallows both conditions);
* emission (`main`): `str.format` with the keyword table
  genome/output/reference/fwd/rev, writing `<jobs>/slurm-<sample>.job`.

Machine strings are `String`/`List Char`; file systems are explicit maps;
fallible steps return `Except PyError` or an `Option PyError` field.
-/

namespace SlurmSubmit

/-- Opening brace character, written via its code point. -/
def lbrace : Char := Char.ofNat 123

/-- Closing brace character, written via its code point. -/
def rbrace : Char := Char.ofNat 125

/-- Python exceptions the script can raise (uncaught, so they abort the
run with a non-zero exit). The payload is the information Python puts in
the exception: the key for `KeyError`, the message for `ValueError`, the
path for `FileNotFoundError`. -/
inductive PyError where
  | fileNotFoundError (path : String)
  | valueError (msg : String)
  | keyError (key : String)
  | indexError (msg : String)
deriving DecidableEq, Repr

/-- Command-line arguments after `argparse` (function `arguments`):
three positional paths and two optional ones, kept as strings; an
omitted option is `none` (Python `None`). -/
structure Args where
  template : String
  fastqs : String
  jobs : String
  output : Option String
  reference : Option String
deriving DecidableEq, Repr

/-- File-system snapshot the run reads: `files` maps a path to the text
of a regular file, `dirs` maps a directory path to the names of its
direct children (`none` models a directory that does not exist or is not
readable, which `pathlib.Path.glob` treats identically: it yields no
entries), and `cwd` is the current working directory used by
`Path.absolute`. -/
structure FS where
  cwd : String
  files : String → Option String
  dirs : String → Option (List String)

/-- Observable outcome of one run of `main`: files written (path and
contents, in order), lines printed, and the uncaught exception if the
run aborted (`none` models exit code 0). -/
structure RunResult where
  writes : List (String × String)
  msgs : List String
  err : Option PyError
deriving DecidableEq, Repr

/-! ## Sample-name derivation (`group_fastqs`, lines 53-64) -/

/-- Final path component: the characters after the last `/`
(Python `Path.name`; trailing-slash normalisation is not modelled, the
program only forms paths whose last component is a plain filename). -/
def basenameChars (l : List Char) : List Char :=
  ((l.reverse.takeWhile (fun c => c ≠ '/')).reverse)

/-- Python `Path.stem` on a filename: drop the last `.suffix` when the
last dot's index `i` satisfies `0 < i < length - 1`, else keep the name
(CPython's `PurePath.suffix` rule). `j` is the dot's distance from the
end. -/
def stemChars (n : List Char) : List Char :=
  match (n.reverse).findIdx? (fun c => c = '.') with
  | none => n
  | some j => if 1 ≤ j ∧ j + 1 < n.length then ((n.reverse).drop (j + 1)).reverse else n

/-- The six read-type suffixes accepted by
`fastq_regex = ^(.+)\.(fastq|fq)(\.gz|\.bz2)?$`. At most one of them can
terminate a given string, so the regex substitution by group 1 is the
function `stripExtChars` below. -/
def fastqExts : List String := [".fq", ".fastq", ".fq.gz", ".fastq.gz", ".fq.bz2", ".fastq.bz2"]

/-- One candidate of `fastq_regex`: if `l` is a nonempty,
newline-free prefix followed by `ext`, return the prefix (the regex's
`(.+)` cannot cross a newline; the `$`-before-final-newline quirk of
Python is not modelled, no claim involves newlines in filenames). -/
def tryStrip (l : List Char) (ext : List Char) : Option (List Char) :=
  let k := l.length - ext.length
  if ext.length < l.length ∧ l.drop k = ext ∧ (∀ c ∈ l.take k, c ≠ '\n') then
    some (l.take k)
  else none

/-- Substitution `fastq_regex.sub(r'\1', l)`: strip the read-type
extension group when present, else leave `l` unchanged. -/
def stripExtChars (l : List Char) : List Char :=
  match fastqExts.findSome? (fun e => tryStrip l e.data) with
  | some p => p
  | none => l

/-- Tail `_L\d*1_R\d+_001` of `illumina_regex`, matched at the head of
`l`; returns the remainder after the match. Backtracking collapses to a
deterministic rule: `\d*1` must be the maximal digit run and that run
must end in `1` (a shorter split would put a digit where the pattern
needs `_`), and `\d+` must be the maximal digit run, nonempty, followed
by the literal `_001`. -/
def matchLRTail (l : List Char) : Option (List Char) :=
  match l with
  | c1 :: c2 :: rest =>
    if c1 = '_' ∧ c2 = 'L' then
      match (rest.takeWhile Char.isDigit).reverse with
      | d1 :: _ =>
        if d1 = '1' then
          match rest.dropWhile Char.isDigit with
          | c3 :: c4 :: rest2 =>
            if c3 = '_' ∧ c4 = 'R' then
              match rest2.takeWhile Char.isDigit with
              | [] => none
              | _ :: _ =>
                match rest2.dropWhile Char.isDigit with
                | c5 :: c6 :: c7 :: c8 :: rest4 =>
                  if c5 = '_' ∧ c6 = '0' ∧ c7 = '0' ∧ c8 = '1' then some rest4 else none
                | _ => none
            else none
          | _ => none
        else none
      | [] => none
    else none
  | _ => none

/-- Greedy `.+` of `illumina_regex`: consume at least one non-newline
character, preferring the longest consumption (the deepest recursive
alternative is tried first, which is exactly the regex engine's
backtracking order), then match the `_L...` tail. -/
def tryDotPlus : List Char → Option (List Char)
  | [] => none
  | c :: rest =>
    if c = '\n' then none
    else
      match tryDotPlus rest with
      | some r => some r
      | none => matchLRTail rest

/-- Attempt to match `illumina_regex = _S.+_L\d*1_R\d+_001` at the head
of `l`; returns the remainder after the match. -/
def tryMatchAt (l : List Char) : Option (List Char) :=
  match l with
  | c1 :: c2 :: rest =>
    if c1 = '_' ∧ c2 = 'S' then tryDotPlus rest else none
  | _ => none

/-- Scan of `re.sub(illumina_regex, '', s)`: find the leftmost match,
delete it, resume after it. Fuel is the list length; every step consumes
at least one character, so `illuminaSubChars` below never exhausts it. -/
def illuminaSubAux : Nat → List Char → List Char
  | 0, l => l
  | _ + 1, [] => []
  | fuel + 1, c :: rest =>
    match tryMatchAt (c :: rest) with
    | some r => illuminaSubAux fuel r
    | none => c :: illuminaSubAux fuel rest

/-- Removal of every occurrence of the Illumina lane/read marker,
Python `re.sub(illumina_regex, '', l)`. -/
def illuminaSubChars (l : List Char) : List Char :=
  illuminaSubAux l.length l

/-- Sample name derived from one FASTQ path (lines 62-64):
`re.sub(illumina_regex, '', fastq_regex.sub(r'\1', fastq.stem))`. -/
def deriveSampleName (path : String) : String :=
  String.mk (illuminaSubChars (stripExtChars (stemChars (basenameChars path.data))))

/-! ## The spec's marker pattern, for comparison (claim C2) -/

/-- Modelled from the spec: the spec describes the S-field of the marker
as "one-or-more non-underscore characters", i.e. `_S[^_]+_L\d*1_R\d+_001`
instead of the code's `_S.+_L\d*1_R\d+_001`. This is the spec's `[^_]+`
part; it differs from `tryDotPlus` only in refusing underscores. -/
def specTryDotPlus : List Char → Option (List Char)
  | [] => none
  | c :: rest =>
    if c = '_' then none
    else
      match specTryDotPlus rest with
      | some r => some r
      | none => matchLRTail rest

/-- Modelled from the spec: match of the spec's marker pattern at the
head of `l`. -/
def specTryMatchAt (l : List Char) : Option (List Char) :=
  match l with
  | c1 :: c2 :: rest =>
    if c1 = '_' ∧ c2 = 'S' then specTryDotPlus rest else none
  | _ => none

/-- Modelled from the spec: global removal of the spec's marker pattern. -/
def specIlluminaSubAux : Nat → List Char → List Char
  | 0, l => l
  | _ + 1, [] => []
  | fuel + 1, c :: rest =>
    match specTryMatchAt (c :: rest) with
    | some r => specIlluminaSubAux fuel r
    | none => c :: specIlluminaSubAux fuel rest

/-- Modelled from the spec: removal of every occurrence of the spec's
(non-underscore) marker pattern. -/
def specIlluminaSubChars (l : List Char) : List Char :=
  specIlluminaSubAux l.length l

/-! ## Grouping (`group_fastqs`, lines 56-76) -/

/-- Python string `≤`: lexicographic comparison by code point
(`sorted` on `Path` objects compares their string forms, and all paths
in one group share the directory prefix, so this is the order used). -/
def lexLe : List Char → List Char → Bool
  | [], _ => true
  | _ :: _, [] => false
  | a :: as, b :: bs =>
    if a.toNat < b.toNat then true
    else if b.toNat < a.toNat then false
    else lexLe as bs

/-- String comparison used by `sorted(paths)`. -/
def strLe (a b : String) : Bool := lexLe a.data b.data

/-- Insert into an ascending list (one step of `sorted`). -/
def insertStr (x : String) : List String → List String
  | [] => [x]
  | y :: ys => if strLe x y then x :: y :: ys else y :: insertStr x ys

/-- Python `sorted(paths)`: ascending lexicographic sort. -/
def sortStrs (l : List String) : List String := l.foldr insertStr []

/-- One step of `genome_fastqs[genome_name].append(fastq)` on an
insertion-ordered association list (Python dicts preserve insertion
order): append the path to an existing group, or add a new group at the
end. -/
def addToGroup (groups : List (String × List String)) (name : String) (path : String) :
    List (String × List String) :=
  match groups with
  | [] => [(name, [path])]
  | (n, ps) :: rest =>
    if n = name then (n, ps ++ [path]) :: rest
    else (n, ps) :: addToGroup rest name path

/-- Loop of lines 60-66: group the paths by derived sample name,
preserving first-occurrence order of names and insertion order inside a
group. -/
def groupByName (fastqs : List String) : List (String × List String) :=
  fastqs.foldl (fun acc f => addToGroup acc (deriveSampleName f) f) []

/-- Loop of lines 68-72: `fwd, rev, *_ = sorted(paths)` for each group,
in insertion order. A group with fewer than two members raises Python's
unpacking `ValueError` at that point; extra members beyond the first two
sorted ones are dropped. -/
def pickAll : List (String × List String) → Except PyError (List (String × String × String))
  | [] => .ok []
  | (name, paths) :: rest =>
    match sortStrs paths with
    | fwd :: rev :: _ =>
      match pickAll rest with
      | .ok tail => .ok ((name, fwd, rev) :: tail)
      | .error e => .error e
    | short =>
      .error (.valueError
        ("not enough values to unpack (expected at least 2, got " ++ toString short.length ++ ")"))

/-- Function `group_fastqs` (lines 39-76), minus its `print`, which
`main` below accounts for: sample name → (fwd, rev), or the unpacking
`ValueError`. -/
def group_fastqs (fastqs : List String) : Except PyError (List (String × String × String)) :=
  pickAll (groupByName fastqs)

/-! ## Discovery (`get_fastq_paths`, lines 79-91) -/

/-- Glob patterns `'*{}{}'.format(a, b)` in the order produced by
`itertools.product(['.fq', '.fastq'], ['', '.gz', '.bz2'])`. -/
def extPatterns : List String := [".fq", ".fq.gz", ".fq.bz2", ".fastq", ".fastq.gz", ".fastq.bz2"]

/-- Match of the glob pattern `*<ext>` on a name: `fnmatch` translates
it to `.*\Z`-anchored regex, i.e. a case-sensitive ends-with test
(pathlib's glob does not special-case dotfiles). -/
def endsWithStr (n ext : String) : Bool := ext.data.isSuffixOf n.data

/-- Name matches at least one of the six recognized patterns. -/
def matchesExt (n : String) : Bool := extPatterns.any (fun e => endsWithStr n e)

/-- POSIX absolute-path test used by `Path.absolute`. -/
def isAbsPath (p : String) : Bool :=
  match p.data with
  | [] => false
  | c :: _ => c == '/'

/-- Python `Path(p).absolute()`: prepend the working directory to a
relative path (no normalisation, no symlink resolution). -/
def absolutize (cwd p : String) : String :=
  if isAbsPath p then p else cwd ++ "/" ++ p

/-- Glob phase on a readable directory listing: for each pattern in
order, the matching names in directory order, joined (lines 85-87), each
as `directory/name` made absolute. -/
def globFastqs (cwd dir : String) (names : List String) : List String :=
  ((extPatterns.map (fun e => names.filter (fun n => endsWithStr n e))).flatten).map
    (fun n => absolutize cwd (dir ++ "/" ++ n))

/-- Function `get_fastq_paths` (lines 79-91), minus its `print`, which
`main` accounts for. A directory that does not exist or is not readable
(`fs.dirs dir = none`) yields no entries: pathlib's glob returns an
empty iterator for a non-directory parent and swallows
`PermissionError`. -/
def get_fastq_paths (fs : FS) (dir : String) : List String :=
  match fs.dirs dir with
  | none => []
  | some names => globFastqs fs.cwd dir names

/-! ## Template substitution (`str.format`, line 110) -/

/-- String form Python substitutes for an optional `Path` argument:
`str(None) = "None"` when the option was not supplied. -/
def pyStrOpt : Option String → String
  | none => "None"
  | some s => s

/-- Keyword table of the `job_tmpl.format(...)` call on lines 110-114. -/
def stdKwargs (sample : String) (out ref : Option String) (fwd rev : String) :
    String → Option String :=
  fun k =>
    if k = "genome" then some sample
    else if k = "output" then some (pyStrOpt out)
    else if k = "reference" then some (pyStrOpt ref)
    else if k = "fwd" then some fwd
    else if k = "rev" then some rev
    else none

/-- Scan a replacement field up to the closing brace: returns the field
text and the rest of the template, or `none` when the brace is never
closed. -/
def splitField : List Char → Option (List Char × List Char)
  | [] => none
  | c :: rest =>
    if c = rbrace then some ([], rest)
    else
      match splitField rest with
      | some (f, r) => some (c :: f, r)
      | none => none

/-- Python `str.format` with keyword arguments only, on the fragment of
the format language this template interface uses: literal text, `\x7b\x7b`
and `\x7d\x7d` escapes, and named replacement fields. The field name is
the text before any `:` or `!` (conversions and format specs are parsed
but their effect on the value is not modelled; no claim uses them). A
field whose name is empty or numeric is positional, and no positional
arguments are passed, so it raises `IndexError`; an unknown keyword
raises `KeyError`; a stray single brace raises `ValueError`. Fuel is the
template length; every step consumes at least one character. -/
def pyFormatAux (kw : String → Option String) : Nat → List Char → Except PyError (List Char)
  | 0, _ => .ok []
  | _ + 1, [] => .ok []
  | fuel + 1, c :: rest =>
    if c = lbrace then
      match rest with
      | [] => .error (.valueError "Single '\x7b' encountered in format string")
      | c2 :: rest2 =>
        if c2 = lbrace then
          match pyFormatAux kw fuel rest2 with
          | .ok out => .ok (lbrace :: out)
          | .error e => .error e
        else
          match splitField rest with
          | none => .error (.valueError "Single '\x7b' encountered in format string")
          | some (field, rest3) =>
            let name := field.takeWhile (fun ch => !(ch == ':' || ch == '!'))
            if name = [] ∨ name.all Char.isDigit = true then
              .error (.indexError "Replacement index 0 out of range for positional args tuple")
            else
              match kw (String.mk name) with
              | none => .error (.keyError (String.mk name))
              | some v =>
                match pyFormatAux kw fuel rest3 with
                | .ok out => .ok (v.data ++ out)
                | .error e => .error e
    else if c = rbrace then
      match rest with
      | [] => .error (.valueError "Single '\x7d' encountered in format string")
      | c2 :: rest2 =>
        if c2 = rbrace then
          match pyFormatAux kw fuel rest2 with
          | .ok out => .ok (rbrace :: out)
          | .error e => .error e
        else .error (.valueError "Single '\x7d' encountered in format string")
    else
      match pyFormatAux kw fuel rest with
      | .ok out => .ok (c :: out)
      | .error e => .error e

/-- `tmpl.format(genome=..., output=..., reference=..., fwd=..., rev=...)`. -/
def pyFormat (tmpl : String) (kw : String → Option String) : Except PyError String :=
  match pyFormatAux kw tmpl.data.length tmpl.data with
  | .ok l => .ok (String.mk l)
  | .error e => .error e

/-! ## Emission and `main` (lines 94-121) -/

/-- Loop of lines 106-121: per sample, format the template and write
`<jobs>/slurm-<sample>.job`, echoing one `Wrote ...` line. A formatting
exception aborts before the write; `jobsOk = false` models a missing job
directory, whose first `write_text` raises `FileNotFoundError`. Returns
(writes, printed lines, uncaught exception). -/
def emitLoop (tmpl jobsDir : String) (jobsOk : Bool) (out ref : Option String) :
    List (String × String × String) → List (String × String) × List String × Option PyError
  | [] => ([], [], none)
  | (name, fwd, rev) :: rest =>
    match pyFormat tmpl (stdKwargs name out ref fwd rev) with
    | .error e => ([], [], some e)
    | .ok job =>
      let path := jobsDir ++ "/slurm-" ++ name ++ ".job"
      if jobsOk then
        match emitLoop tmpl jobsDir jobsOk out ref rest with
        | (ws, ms, e) =>
          ((path, job) :: ws,
           ("Wrote " ++ path ++ " for sample " ++ name ++ " with inputs " ++ fwd ++ " " ++ rev)
             :: ms,
           e)
      else ([], [], some (.fileNotFoundError path))

/-- Function `main` (lines 94-121): read the template
(`FileNotFoundError` when absent), discover FASTQs (printing the
`Found ...` line), group them (printing `Grouped ...` only when the
grouping loop finishes, as the print on line 74 comes after it), then
emit one job per sample. -/
def main (args : Args) (fs : FS) : RunResult :=
  match fs.files args.template with
  | none => ⟨[], [], some (.fileNotFoundError args.template)⟩
  | some tmpl =>
    let fq := get_fastq_paths fs args.fastqs
    let msg1 := "Found " ++ toString fq.length ++ " fastqs in " ++ args.fastqs
    match group_fastqs fq with
    | .error e => ⟨[], [msg1], some e⟩
    | .ok groups =>
      let msg2 :=
        "Grouped " ++ toString fq.length ++ " FASTQs into " ++ toString groups.length ++ " samples"
      match emitLoop tmpl args.jobs (fs.dirs args.jobs).isSome args.output args.reference groups with
      | (ws, ms, e) => ⟨ws, msg1 :: msg2 :: ms, e⟩

/-! ## Concrete runs used by witnesses and counterexamples -/

/-- Substring test (used to state that an error message does or does not
name a sample). -/
def containsSub (needle : List Char) : List Char → Bool
  | [] => needle.isPrefixOf []
  | c :: t => needle.isPrefixOf (c :: t) || containsSub needle t

/-- Arguments of the concrete run used to witness C3's amended claim:
one matching file `only.fq` in the fastqs directory. -/
def c3Args : Args := ⟨"t", "d", "j", none, none⟩

/-- File system of the concrete run used to witness C3's amended claim. -/
def c3FS : FS :=
  ⟨"/c",
   fun p => if p = "t" then some "x" else none,
   fun p => if p = "d" then some ["only.fq"] else none⟩

/-- Arguments of the concrete run refuting claim C5: the fastqs
directory `missing_dir` does not exist. -/
def c5Args : Args := ⟨"tmpl", "missing_dir", "jobs", none, none⟩

/-- File system refuting claim C5: the template exists, no directory
does. -/
def c5FS : FS :=
  ⟨"/cwd", fun p => if p = "tmpl" then some "{genome}" else none, fun _ => none⟩

/-- Arguments of the concrete zero-match run witnessing C9. -/
def c9Args : Args := ⟨"t9", "d9", "j9", none, none⟩

/-- File system of the concrete zero-match run witnessing C9: the
directory exists but holds no name with a recognized extension. -/
def c9FS : FS :=
  ⟨"/c",
   fun p => if p = "t9" then some "some template" else none,
   fun p => if p = "d9" then some ["notes.txt", "data.csv"] else none⟩

/-! ## Helper lemmas -/

theorem strMk_data (s : String) : String.mk s.data = s := rfl

theorem insertStr_length (x : String) (l : List String) :
    (insertStr x l).length = l.length + 1 := by
  induction l with
  | nil => rfl
  | cons y ys ih =>
    rw [insertStr]
    split
    · simp
    · simp [ih]

theorem sortStrs_length (l : List String) : (sortStrs l).length = l.length := by
  induction l with
  | nil => rfl
  | cons x xs ih =>
    show (insertStr x (xs.foldr insertStr [])).length = xs.length + 1
    rw [insertStr_length]
    exact congrArg (· + 1) ih

/-- Grouping loop aborts with the unpacking `ValueError` whenever some
group has fewer than two files. -/
theorem pickAll_short (gs : List (String × List String))
    (h : ∃ g ∈ gs, g.2.length < 2) : ∃ m, pickAll gs = .error (.valueError m) := by
  induction gs with
  | nil => obtain ⟨g, hg, _⟩ := h; simp at hg
  | cons p rest ih =>
    obtain ⟨g, hg, hlen⟩ := h
    obtain ⟨name, paths⟩ := p
    rcases hs : sortStrs paths with _ | ⟨fwd, _ | ⟨rev, tl2⟩⟩
    · exact ⟨_, by rw [pickAll, hs]⟩
    · exact ⟨_, by rw [pickAll, hs]⟩
    · have hplen : 2 ≤ paths.length := by
        have hl := sortStrs_length paths
        rw [hs] at hl
        simp at hl
        omega
      rcases List.mem_cons.1 hg with rfl | hgrest
      · exact absurd hlen (by simp; omega)
      · obtain ⟨m, hm⟩ := ih ⟨g, hgrest, hlen⟩
        exact ⟨m, by rw [pickAll, hs, hm]⟩

/-- Main run on an empty discovery result: no job written, zero counts
reported, no exception. -/
theorem main_no_fastqs (args : Args) (fs : FS) (tmpl : String)
    (ht : fs.files args.template = some tmpl)
    (hf : get_fastq_paths fs args.fastqs = []) :
    main args fs =
      ⟨[], ["Found 0 fastqs in " ++ args.fastqs, "Grouped 0 FASTQs into 0 samples"], none⟩ := by
  simp only [main, ht, hf]
  rfl

/-! ## Claim theorems -/

/-- Claim C1: the two files `sample_S1_L001_R1_001.fastq.gz` and
`sample_S1_L001_R2_001.fastq.gz` both derive to sample name `sample`,
grouping puts them in one group, and after the lexicographic sort the R1
file is the forward mate and the R2 file the reverse mate. -/
theorem c1_grouping_pairs :
    deriveSampleName "sample_S1_L001_R1_001.fastq.gz" = "sample" ∧
    deriveSampleName "sample_S1_L001_R2_001.fastq.gz" = "sample" ∧
    group_fastqs ["sample_S1_L001_R1_001.fastq.gz", "sample_S1_L001_R2_001.fastq.gz"] =
      .ok [("sample", "sample_S1_L001_R1_001.fastq.gz", "sample_S1_L001_R2_001.fastq.gz")] :=
  ⟨rfl, rfl, rfl⟩

/-- Claim C7: `reads_1.fastq` and `reads_2.fastq` contain no Illumina
marker, derive to the distinct names `reads_1` and `reads_2` (no
stripping), and grouping puts them in two separate one-file groups, not
one sample. -/
theorem c7_no_marker_distinct :
    deriveSampleName "reads_1.fastq" = "reads_1" ∧
    deriveSampleName "reads_2.fastq" = "reads_2" ∧
    groupByName ["reads_1.fastq", "reads_2.fastq"] =
      [("reads_1", ["reads_1.fastq"]), ("reads_2", ["reads_2.fastq"])] :=
  ⟨rfl, rfl, rfl⟩

/-- Claim C3, counterexample: a one-file group makes the run fail, but
with Python's generic unpacking `ValueError`, raised in the grouping
loop; the message does not name the sample (`only`) nor the group's
contents, and no `MissingMateError` exists in the code. -/
theorem c3_counterexample :
    group_fastqs ["only.fq"] =
      .error (.valueError "not enough values to unpack (expected at least 2, got 1)") ∧
    deriveSampleName "only.fq" = "only" ∧
    containsSub "only".data "not enough values to unpack (expected at least 2, got 1)".data
      = false :=
  ⟨rfl, rfl, rfl⟩

/-- Claim C3, amended: a sample group with fewer than two files causes a
predictable failure before any job file is written — but it is the
generic unpacking `ValueError` from `fwd, rev, *_ = sorted(paths)`
during grouping, not a `MissingMateError`, and it does not name the
sample. -/
theorem c3_short_group_fails (args : Args) (fs : FS) (tmpl : String)
    (ht : fs.files args.template = some tmpl)
    (hshort : ∃ g ∈ groupByName (get_fastq_paths fs args.fastqs), g.2.length < 2) :
    (main args fs).writes = [] ∧ ∃ m, (main args fs).err = some (.valueError m) := by
  obtain ⟨m, hm⟩ := pickAll_short _ hshort
  have hg : group_fastqs (get_fastq_paths fs args.fastqs) = .error (.valueError m) := hm
  refine ⟨?_, m, ?_⟩ <;> simp [main, ht, hg]

theorem c3_short_group_fails_witness :
    (c3FS.files c3Args.template = some "x" ∧
      ∃ g ∈ groupByName (get_fastq_paths c3FS c3Args.fastqs), g.2.length < 2) ∧
    ((main c3Args c3FS).writes = [] ∧
      ∃ m, (main c3Args c3FS).err = some (.valueError m)) :=
  ⟨⟨rfl, ⟨("only", ["/c/d/only.fq"]), by decide, by decide⟩⟩,
   c3_short_group_fails c3Args c3FS "x" rfl
     ⟨("only", ["/c/d/only.fq"]), by decide, by decide⟩⟩

/-- Claim C5, counterexample: with a nonexistent (or unreadable) fastqs
directory the run does not fail at all — no `PathError` exists in the
code, `pathlib.Path.glob` yields nothing for a missing directory — so
the run prints zero counts and exits 0. -/
theorem c5_counterexample :
    c5FS.dirs "missing_dir" = none ∧
    (main c5Args c5FS).err = none ∧
    (main c5Args c5FS).writes = [] :=
  ⟨rfl, rfl, rfl⟩

/-- Claim C5, amended: a fastqs directory that does not exist or is not
readable is treated as empty: discovery returns nothing, no job file is
written, the summary reports zero, and the run exits 0 with no error of
any kind. -/
theorem c5_missing_dir_runs_clean (args : Args) (fs : FS) (tmpl : String)
    (ht : fs.files args.template = some tmpl)
    (hd : fs.dirs args.fastqs = none) :
    main args fs =
      ⟨[], ["Found 0 fastqs in " ++ args.fastqs, "Grouped 0 FASTQs into 0 samples"], none⟩ :=
  main_no_fastqs args fs tmpl ht (by simp [get_fastq_paths, hd])

theorem c5_missing_dir_runs_clean_witness :
    (c5FS.files c5Args.template = some "{genome}" ∧ c5FS.dirs c5Args.fastqs = none) ∧
    main c5Args c5FS =
      ⟨[], ["Found 0 fastqs in missing_dir", "Grouped 0 FASTQs into 0 samples"], none⟩ :=
  ⟨⟨rfl, rfl⟩, c5_missing_dir_runs_clean c5Args c5FS "{genome}" rfl rfl⟩

/-- Claim C10: when the output option (`-o`) or the reference option is
absent, the value
substituted for the corresponding placeholder is the string `None`
(Python's `str(None)` through `format`), not the empty string. -/
theorem c10_none_string (sample fwd rev : String) :
    stdKwargs sample none none fwd rev "output" = some "None" ∧
    stdKwargs sample none none fwd rev "reference" = some "None" ∧
    pyFormat "{output}" (stdKwargs sample none none fwd rev) = .ok "None" ∧
    pyFormat "{reference}" (stdKwargs sample none none fwd rev) = .ok "None" ∧
    ("None" : String) ≠ "" :=
  ⟨rfl, rfl, rfl, rfl, by decide⟩

/-! ## Claim C2: shape of the stripped Illumina marker -/

/-- Every successful match of the `_L\d*1_R\d+_001` tail decomposes the
input as `_L` ++ digits ++ `1` ++ `_R` ++ digits ++ `_001` ++ remainder. -/
theorem matchLRTail_sound {l r : List Char} (h : matchLRTail l = some r) :
    ∃ d e, l = '_' :: 'L' :: (d ++ '1' :: '_' :: 'R' :: (e ++ '_' :: '0' :: '0' :: '1' :: r)) ∧
      (∀ c ∈ d, c.isDigit = true) ∧ (∀ c ∈ e, c.isDigit = true) ∧ e ≠ [] := by
  rcases l with _ | ⟨c1, _ | ⟨c2, rest⟩⟩
  · simp [matchLRTail] at h
  · simp [matchLRTail] at h
  simp only [matchLRTail] at h
  by_cases h12 : c1 = '_' ∧ c2 = 'L'
  · obtain ⟨rfl, rfl⟩ := h12
    rw [if_pos ⟨rfl, rfl⟩] at h
    rcases hrev : (rest.takeWhile Char.isDigit).reverse with _ | ⟨d1, dtl⟩
    · rw [hrev] at h; exact absurd h (by simp)
    rw [hrev] at h
    dsimp only at h
    by_cases hd1 : d1 = '1'
    · subst hd1
      rw [if_pos rfl] at h
      rcases hdw : rest.dropWhile Char.isDigit with _ | ⟨c3, _ | ⟨c4, rest2⟩⟩
      · rw [hdw] at h; exact absurd h (by simp)
      · rw [hdw] at h; exact absurd h (by simp)
      rw [hdw] at h
      dsimp only at h
      by_cases h34 : c3 = '_' ∧ c4 = 'R'
      · obtain ⟨rfl, rfl⟩ := h34
        rw [if_pos ⟨rfl, rfl⟩] at h
        rcases htw2 : rest2.takeWhile Char.isDigit with _ | ⟨e1, etl⟩
        · rw [htw2] at h; exact absurd h (by simp)
        rw [htw2] at h
        dsimp only at h
        rcases hdw2 : rest2.dropWhile Char.isDigit with
          _ | ⟨c5, _ | ⟨c6, _ | ⟨c7, _ | ⟨c8, rest4⟩⟩⟩⟩
        · rw [hdw2] at h; exact absurd h (by simp)
        · rw [hdw2] at h; exact absurd h (by simp)
        · rw [hdw2] at h; exact absurd h (by simp)
        · rw [hdw2] at h; exact absurd h (by simp)
        rw [hdw2] at h
        dsimp only at h
        by_cases h58 : c5 = '_' ∧ c6 = '0' ∧ c7 = '0' ∧ c8 = '1'
        · obtain ⟨rfl, rfl, rfl, rfl⟩ := h58
          rw [if_pos ⟨rfl, rfl, rfl, rfl⟩] at h
          have hr : rest4 = r := by injection h
          subst hr
          have htw : rest.takeWhile Char.isDigit = dtl.reverse ++ ['1'] := by
            have h2 := congrArg List.reverse hrev
            simpa using h2
          have hrest : rest = (dtl.reverse ++ ['1']) ++ ('_' :: 'R' :: rest2) := by
            rw [← htw, ← hdw]
            exact (List.takeWhile_append_dropWhile Char.isDigit rest).symm
          have hrest2 : rest2 = (e1 :: etl) ++ ('_' :: '0' :: '0' :: '1' :: rest4) := by
            rw [← htw2, ← hdw2]
            exact (List.takeWhile_append_dropWhile Char.isDigit rest2).symm
          refine ⟨dtl.reverse, e1 :: etl, ?_, ?_, ?_, by simp⟩
          · rw [hrest, hrest2]
            simp
          · intro c hc
            refine List.mem_takeWhile_imp (l := rest) (p := Char.isDigit) ?_
            rw [htw]
            exact List.mem_append_left _ hc
          · intro c hc
            refine List.mem_takeWhile_imp (l := rest2) (p := Char.isDigit) ?_
            rw [htw2]
            exact hc
        · rw [if_neg h58] at h; exact absurd h (by simp)
      · rw [if_neg h34] at h; exact absurd h (by simp)
    · rw [if_neg hd1] at h; exact absurd h (by simp)
  · rw [if_neg h12] at h; exact absurd h (by simp)

/-- Every successful greedy `.+`-then-tail match splits the input into a
nonempty newline-free middle followed by a tail match. -/
theorem tryDotPlus_sound {l r : List Char} (h : tryDotPlus l = some r) :
    ∃ mid tail, l = mid ++ tail ∧ mid ≠ [] ∧ (∀ c ∈ mid, c ≠ '\n') ∧
      matchLRTail tail = some r := by
  induction l with
  | nil => simp [tryDotPlus] at h
  | cons c cs ih =>
    rw [tryDotPlus] at h
    by_cases hc : c = '\n'
    · rw [if_pos hc] at h; exact absurd h (by simp)
    rw [if_neg hc] at h
    rcases htp : tryDotPlus cs with _ | r'
    · rw [htp] at h
      exact ⟨[c], cs, rfl, by simp, by simpa using hc, h⟩
    · rw [htp] at h
      have hr : r' = r := by injection h
      subst hr
      obtain ⟨mid, tail, rfl, hm, hnl, hmt⟩ := ih htp
      refine ⟨c :: mid, tail, by simp, by simp, ?_, hmt⟩
      intro x hx
      rcases List.mem_cons.1 hx with rfl | hx'
      · exact hc
      · exact hnl x hx'

/-- Claim C2, amended: every lane/read marker the code removes is a
substring of the form underscore, `S`, one or more arbitrary
(non-newline) characters — underscores included, since the code's
pattern is `.+`, not the spec's "non-underscore characters" — then
underscore, `L`, zero or more digits, a literal `1`, underscore, `R`,
one or more digits, underscore, `001`. -/
theorem c2_marker_shape (l r : List Char) (h : tryMatchAt l = some r) :
    ∃ mid d e,
      l = '_' :: 'S' ::
        (mid ++ '_' :: 'L' :: (d ++ '1' :: '_' :: 'R' :: (e ++ '_' :: '0' :: '0' :: '1' :: r))) ∧
      mid ≠ [] ∧ (∀ c ∈ mid, c ≠ '\n') ∧ (∀ c ∈ d, c.isDigit = true) ∧
      (∀ c ∈ e, c.isDigit = true) ∧ e ≠ [] := by
  rcases l with _ | ⟨c1, _ | ⟨c2, rest⟩⟩
  · simp [tryMatchAt] at h
  · simp [tryMatchAt] at h
  simp only [tryMatchAt] at h
  by_cases h12 : c1 = '_' ∧ c2 = 'S'
  · obtain ⟨rfl, rfl⟩ := h12
    rw [if_pos ⟨rfl, rfl⟩] at h
    obtain ⟨mid, tail, rfl, hmne, hnl, hmt⟩ := tryDotPlus_sound h
    obtain ⟨d, e, htail, hd, he, hene⟩ := matchLRTail_sound hmt
    exact ⟨mid, d, e, by rw [htail], hmne, hnl, hd, he, hene⟩
  · rw [if_neg h12] at h; exact absurd h (by simp)

theorem c2_marker_shape_witness :
    ∃ mid d e,
      "_Sx_y_L1_R1_001".data = '_' :: 'S' ::
        (mid ++ '_' :: 'L' ::
          (d ++ '1' :: '_' :: 'R' :: (e ++ '_' :: '0' :: '0' :: '1' :: ([] : List Char)))) ∧
      mid ≠ [] ∧ (∀ c ∈ mid, c ≠ '\n') ∧ (∀ c ∈ d, c.isDigit = true) ∧
      (∀ c ∈ e, c.isDigit = true) ∧ e ≠ [] :=
  c2_marker_shape "_Sx_y_L1_R1_001".data [] rfl

/-- Claim C2, counterexample: the code's S-field is `.+`, not
"non-underscore characters": for the base name `a_Sx_y_L1_R1_001`, whose
characters between `S` and the following `_L` contain an underscore, the
spec's pattern finds no marker (name unchanged), yet the code strips the
whole marker and derives `a`. -/
theorem c2_counterexample :
    deriveSampleName "a_Sx_y_L1_R1_001.fastq" = "a" ∧
    specIlluminaSubChars "a_Sx_y_L1_R1_001".data = "a_Sx_y_L1_R1_001".data ∧
    deriveSampleName "a_Sx_y_L1_R1_001.fastq" ≠ "a_Sx_y_L1_R1_001" :=
  ⟨rfl, rfl, by decide⟩

/-! ## Claim C4: discovery returns exactly the matching names -/

theorem mem_globFastqs {cwd dir : String} {names : List String} {p : String} :
    p ∈ globFastqs cwd dir names ↔
      ∃ n, n ∈ names ∧ matchesExt n = true ∧ p = absolutize cwd (dir ++ "/" ++ n) := by
  simp only [globFastqs, List.mem_map, List.mem_flatten, List.mem_filter, matchesExt,
    List.any_eq_true]
  constructor
  · rintro ⟨n, ⟨l, ⟨e, he, rfl⟩, hn⟩, rfl⟩
    rw [List.mem_filter] at hn
    exact ⟨n, hn.1, ⟨e, he, hn.2⟩, rfl⟩
  · rintro ⟨n, hn, ⟨e, he, hend⟩, rfl⟩
    exact ⟨n, ⟨names.filter (fun x => endsWithStr x e), ⟨e, he, rfl⟩,
      List.mem_filter.2 ⟨hn, hend⟩⟩, rfl⟩

theorem isAbsPath_absolutize (cwd p : String) (h : isAbsPath cwd = true) :
    isAbsPath (absolutize cwd p) = true := by
  unfold absolutize
  split
  · assumption
  · unfold isAbsPath at h ⊢
    rcases hc : cwd.data with _ | ⟨c, t⟩
    · rw [hc] at h; simp at h
    · rw [hc] at h
      dsimp only at h
      have hdata : (cwd ++ "/" ++ p).data = c :: ((t ++ '/' :: []) ++ p.data) := by
        rw [String.data_append, String.data_append, hc]
        rfl
      rw [hdata]
      dsimp only
      exact h

/-- Claim C4: for every directory listing, discovery returns exactly the
entries whose names end with one of the six recognized suffixes
(case-sensitive), each as an absolute path, and nothing else, regardless
of sibling files with unrelated extensions. -/
theorem c4_discovery_exact (cwd dir : String) (names : List String)
    (hcwd : isAbsPath cwd = true) :
    (∀ p ∈ globFastqs cwd dir names, isAbsPath p = true) ∧
    (∀ n ∈ names, matchesExt n = true →
      absolutize cwd (dir ++ "/" ++ n) ∈ globFastqs cwd dir names) ∧
    (∀ p ∈ globFastqs cwd dir names,
      ∃ n, n ∈ names ∧ matchesExt n = true ∧ p = absolutize cwd (dir ++ "/" ++ n)) := by
  refine ⟨?_, ?_, ?_⟩
  · intro p hp
    obtain ⟨n, -, -, rfl⟩ := mem_globFastqs.1 hp
    exact isAbsPath_absolutize cwd _ hcwd
  · intro n hn hm
    exact mem_globFastqs.2 ⟨n, hn, hm, rfl⟩
  · intro p hp
    exact mem_globFastqs.1 hp

theorem c4_discovery_exact_witness :
    isAbsPath "/c" = true ∧
    ((∀ p ∈ globFastqs "/c" "d" ["a.fq", "b.txt"], isAbsPath p = true) ∧
     (∀ n ∈ ["a.fq", "b.txt"], matchesExt n = true →
       absolutize "/c" ("d" ++ "/" ++ n) ∈ globFastqs "/c" "d" ["a.fq", "b.txt"]) ∧
     (∀ p ∈ globFastqs "/c" "d" ["a.fq", "b.txt"],
       ∃ n, n ∈ ["a.fq", "b.txt"] ∧ matchesExt n = true ∧
         p = absolutize "/c" ("d" ++ "/" ++ n))) :=
  ⟨rfl, c4_discovery_exact "/c" "d" ["a.fq", "b.txt"] rfl⟩

/-! ## Claim C9: empty discovery means a clean zero-sample run -/

/-- Claim C9: when the scanned directory contains zero files matching
the recognized extensions, the run writes zero job files, its printed
summary reports zero FASTQs and zero samples, and it finishes without an
exception (exit code 0). -/
theorem c9_empty_discovery_clean_exit (args : Args) (fs : FS) (tmpl : String)
    (names : List String)
    (ht : fs.files args.template = some tmpl)
    (hd : fs.dirs args.fastqs = some names)
    (hn : ∀ n ∈ names, matchesExt n = false) :
    main args fs =
      ⟨[], ["Found 0 fastqs in " ++ args.fastqs, "Grouped 0 FASTQs into 0 samples"], none⟩ := by
  apply main_no_fastqs args fs tmpl ht
  have hfil : ∀ e ∈ extPatterns, names.filter (fun n => endsWithStr n e) = [] := by
    intro e he
    refine List.filter_eq_nil_iff.2 ?_
    intro a ha hend
    have hm : matchesExt a = true := by
      unfold matchesExt
      rw [List.any_eq_true]
      exact ⟨e, he, hend⟩
    rw [hn a ha] at hm
    exact absurd hm (by simp)
  simp only [get_fastq_paths, hd]
  unfold globFastqs
  rw [List.map_eq_nil_iff, List.flatten_eq_nil_iff]
  intro l hl
  obtain ⟨e, he, rfl⟩ := List.mem_map.1 hl
  exact hfil e he

theorem c9_empty_discovery_clean_exit_witness :
    (c9FS.files c9Args.template = some "some template" ∧
     c9FS.dirs c9Args.fastqs = some ["notes.txt", "data.csv"] ∧
     ∀ n ∈ ["notes.txt", "data.csv"], matchesExt n = false) ∧
    main c9Args c9FS =
      ⟨[], ["Found 0 fastqs in d9", "Grouped 0 FASTQs into 0 samples"], none⟩ :=
  ⟨⟨rfl, rfl, by decide⟩,
   c9_empty_discovery_clean_exit c9Args c9FS "some template" ["notes.txt", "data.csv"]
     rfl rfl (by decide)⟩

/-! ## Claim C6: template placeholder errors -/

theorem splitField_append (f post : List Char) (h : ∀ c ∈ f, c ≠ rbrace) :
    splitField (f ++ rbrace :: post) = some (f, post) := by
  induction f with
  | nil => simp [splitField]
  | cons c cs ih =>
    have hc : c ≠ rbrace := h c (by simp)
    have ih' := ih (fun x hx => h x (by simp [hx]))
    simp [splitField, hc, ih']

/-- A replacement field whose name is unknown to the keyword table makes
`pyFormatAux` raise `KeyError` regardless of the fuel. -/
theorem pyFormatAux_field_keyError (kw : String → Option String) (fuel : Nat)
    (name post : List Char)
    (hne : name ≠ [])
    (hch : ∀ c ∈ name, c ≠ lbrace ∧ c ≠ rbrace ∧ c ≠ ':' ∧ c ≠ '!')
    (hdig : name.all Char.isDigit = false)
    (hkw : kw (String.mk name) = none) :
    pyFormatAux kw (fuel + 1) (lbrace :: (name ++ rbrace :: post)) =
      .error (.keyError (String.mk name)) := by
  rcases name with _ | ⟨n1, ntl⟩
  · exact absurd rfl hne
  have h1 : n1 ≠ lbrace := (hch n1 (by simp)).1
  have hs : splitField (n1 :: (ntl ++ rbrace :: post)) = some (n1 :: ntl, post) := by
    have h0 := splitField_append (n1 :: ntl) post (fun c hc => (hch c hc).2.1)
    simpa using h0
  have htw : (n1 :: ntl).takeWhile (fun ch => !(ch == ':' || ch == '!')) = n1 :: ntl := by
    rw [List.takeWhile_eq_self_iff]
    intro x hx
    have h3 := (hch x hx).2.2.1
    have h4 := (hch x hx).2.2.2
    simp [h3, h4]
  have hcond : ¬ (n1 :: ntl = [] ∨ (n1 :: ntl).all Char.isDigit = true) := by
    rintro (habs | habs)
    · exact absurd habs (by simp)
    · rw [hdig] at habs; exact absurd habs (by simp)
  simp only [List.cons_append, pyFormatAux]
  simp only [if_true]
  rw [if_neg h1, hs]
  dsimp only
  rw [htw, if_neg hcond, hkw]

/-- Literal (brace-free) text before an always-failing tail propagates
the tail's error. -/
theorem pyFormatAux_literal_error (kw : String → Option String) (err : PyError)
    (pre : List Char) (fuel : Nat) (T : List Char)
    (hpre : ∀ c ∈ pre, c ≠ lbrace ∧ c ≠ rbrace)
    (hT : ∀ f, pyFormatAux kw (f + 1) T = .error err) :
    pyFormatAux kw (pre.length + fuel + 1) (pre ++ T) = .error err := by
  induction pre with
  | nil => simpa using hT fuel
  | cons c cs ih =>
    have hc1 : c ≠ lbrace := (hpre c (by simp)).1
    have hc2 : c ≠ rbrace := (hpre c (by simp)).2
    have harith : (c :: cs).length + fuel + 1 = (cs.length + fuel + 1) + 1 := by
      simp only [List.length_cons]
      omega
    rw [harith]
    have hrec := ih (fun x hx => hpre x (by simp [hx]))
    simp only [List.cons_append, pyFormatAux]
    simp [hc1, hc2, hrec]

/-- Claim C6, amended: a template that references a placeholder name
outside {genome, output, reference, fwd, rev} makes emission fail with
an uncaught `KeyError` naming that placeholder (here: any template made
of literal brace-free text followed by the unknown field); but a
template that merely omits some or all of the recognized placeholders
formats and is written without any error — `str.format` ignores unused
keyword arguments, so no `TemplateError` (which does not exist in the
code) and no failure occurs for omissions. -/
theorem c6_unknown_placeholder_keyerror :
    (∀ (pre name post : List Char) (sample : String) (out ref : Option String)
        (fwd rev : String),
      (∀ c ∈ pre, c ≠ lbrace ∧ c ≠ rbrace) →
      name ≠ [] →
      (∀ c ∈ name, c ≠ lbrace ∧ c ≠ rbrace ∧ c ≠ ':' ∧ c ≠ '!') →
      name.all Char.isDigit = false →
      stdKwargs sample out ref fwd rev (String.mk name) = none →
      pyFormat (String.mk (pre ++ lbrace :: (name ++ rbrace :: post)))
        (stdKwargs sample out ref fwd rev) = .error (.keyError (String.mk name))) ∧
    (∀ (jobsDir sample fwd rev : String) (out ref : Option String),
      emitLoop "echo" jobsDir true out ref [(sample, fwd, rev)] =
        ([(jobsDir ++ "/slurm-" ++ sample ++ ".job", "echo")],
         ["Wrote " ++ (jobsDir ++ "/slurm-" ++ sample ++ ".job") ++ " for sample " ++ sample ++
            " with inputs " ++ fwd ++ " " ++ rev], none)) := by
  constructor
  · intro pre name post sample out ref fwd rev hpre hne hch hdig hkw
    have hfield : ∀ f, pyFormatAux (stdKwargs sample out ref fwd rev) (f + 1)
        (lbrace :: (name ++ rbrace :: post)) = .error (.keyError (String.mk name)) :=
      fun f => pyFormatAux_field_keyError _ f name post hne hch hdig hkw
    have hlen : (pre ++ lbrace :: (name ++ rbrace :: post)).length
        = pre.length + (name.length + post.length + 1) + 1 := by
      simp only [List.length_append, List.length_cons]
      omega
    show (match pyFormatAux (stdKwargs sample out ref fwd rev)
        (String.mk (pre ++ lbrace :: (name ++ rbrace :: post))).data.length
        (String.mk (pre ++ lbrace :: (name ++ rbrace :: post))).data with
      | .ok l => Except.ok (String.mk l)
      | .error e => Except.error e) = .error (.keyError (String.mk name))
    rw [show (String.mk (pre ++ lbrace :: (name ++ rbrace :: post))).data
        = pre ++ lbrace :: (name ++ rbrace :: post) from rfl]
    rw [hlen]
    rw [pyFormatAux_literal_error _ _ pre (name.length + post.length + 1) _ hpre hfield]
  · intro jobsDir sample fwd rev out ref
    have h : pyFormat "echo" (stdKwargs sample out ref fwd rev) = .ok "echo" := rfl
    simp [emitLoop, h]

/-- Claim C6, counterexample: a template omitting every mandatory
placeholder (`genome`, `fwd`, `rev`) does not fail: the job file is
formatted and written unchanged, with no error of any kind. -/
theorem c6_counterexample :
    emitLoop "echo hello" "jobs" true none none [("s1", "f1", "r1")] =
      ([("jobs/slurm-s1.job", "echo hello")],
       ["Wrote jobs/slurm-s1.job for sample s1 with inputs f1 r1"], none) ∧
    pyFormat "echo hello" (stdKwargs "s1" none none "f1" "r1") = .ok "echo hello" :=
  ⟨rfl, rfl⟩

theorem c6_unknown_placeholder_keyerror_witness :
    pyFormat (String.mk (('e' :: []) ++ lbrace :: (('f' :: 'o' :: 'o' :: []) ++ rbrace :: [])))
      (stdKwargs "s" none none "f" "r")
      = .error (.keyError (String.mk ('f' :: 'o' :: 'o' :: []))) :=
  c6_unknown_placeholder_keyerror.1 ('e' :: []) ('f' :: 'o' :: 'o' :: []) [] "s" none none "f" "r"
    (by decide) (by decide) (by decide) (by decide) rfl

/-! ## Claim C8: round trip through a `genome`-only template -/

/-- Claim C8: for every sample name X, emitting X's job with the
template whose whole text is the genome placeholder writes the file
`<jobs>/slurm-X.job` with contents exactly X. -/
theorem c8_genome_roundtrip (jobsDir X fwd rev : String) (out ref : Option String) :
    emitLoop "{genome}" jobsDir true out ref [(X, fwd, rev)] =
      ([(jobsDir ++ "/slurm-" ++ X ++ ".job", X)],
       ["Wrote " ++ (jobsDir ++ "/slurm-" ++ X ++ ".job") ++ " for sample " ++ X ++
          " with inputs " ++ fwd ++ " " ++ rev], none) := by
  have h : pyFormat "{genome}" (stdKwargs X out ref fwd rev) = .ok X := by
    show (match pyFormatAux (stdKwargs X out ref fwd rev) ("{genome}".data.length)
        ("{genome}".data) with
      | .ok l => Except.ok (String.mk l)
      | .error e => Except.error e) = .ok X
    rw [show pyFormatAux (stdKwargs X out ref fwd rev) ("{genome}".data.length) ("{genome}".data)
        = .ok (X.data ++ []) from rfl]
    rw [List.append_nil]
  simp [emitLoop, h]

end SlurmSubmit
